import Mathlib

/-!
# Verification of the AiRPiano gesture-to-note pipeline

Shallow embedding of the core of the AiRPiano repository:

* `AirPianoPressDetector` (src/js/dualCameraView.js): per-fingertip press
  state machine (`checkPress`, `setDeskSurfaceY`, `updatePosition`).
* `AirPianoController.onResultsSide` (src/js/dualCameraView.js): the
  per-frame note lifecycle (region mapping, note-on / note-off emission),
  calibration capture, and `stop` teardown.
* The recorder (`recordNote`, `stopRecording`) and playback cancellation
  (`stopPlayback`) from src/js/main.js.
* The Exercise Validator, which is described by the documentation but has
  no implementation under src/ and is therefore modelled from the spec.

JavaScript numbers are modelled by `ℚ` (the source only performs exact
arithmetic on the values involved), JS `Map`s keyed by finger-id / note
number are modelled by association lists over `Nat` keys with JS `Map`
semantics (replace-in-place on existing key, append on new key).
-/

/-! ## Association-list model of a JS `Map` with `Nat` keys -/

/-- `Map.get(k)`, as `Option`: first binding of `k`, if any. -/
def mapGet {α : Type} (m : List (Nat × α)) (k : Nat) : Option α :=
  match m with
  | [] => none
  | p :: rest => if p.1 = k then some p.2 else mapGet rest k

/-- `Map.set(k, v)`: replace the binding of `k` in place if present,
append it otherwise (JS `Map` insertion-order semantics). -/
def mapSet {α : Type} (m : List (Nat × α)) (k : Nat) (v : α) : List (Nat × α) :=
  match m with
  | [] => [(k, v)]
  | p :: rest => if p.1 = k then (k, v) :: rest else p :: mapSet rest k v

/-- `Map.delete(k)`: remove the binding of `k`, if present. -/
def mapDelete {α : Type} (m : List (Nat × α)) (k : Nat) : List (Nat × α) :=
  match m with
  | [] => []
  | p :: rest => if p.1 = k then rest else p :: mapDelete rest k

theorem mapGet_set_self {α : Type} (m : List (Nat × α)) (k : Nat) (v : α) :
    mapGet (mapSet m k v) k = some v := by
  induction m with
  | nil => simp [mapGet, mapSet]
  | cons p rest ih =>
    by_cases h : p.1 = k
    · simp [mapGet, mapSet, h]
    · simp [mapGet, mapSet, h, ih]

theorem mapGet_set_ne {α : Type} (m : List (Nat × α)) (k k' : Nat) (v : α)
    (h : k ≠ k') : mapGet (mapSet m k v) k' = mapGet m k' := by
  induction m with
  | nil => simp [mapGet, mapSet, h]
  | cons p rest ih =>
    by_cases hp : p.1 = k
    · simp [mapGet, mapSet, hp, h]
    · by_cases hp' : p.1 = k'
      · simp [mapGet, mapSet, hp, hp', Ne.symm h]
      · simp [mapGet, mapSet, hp, hp', ih]

/-! ## The press detector (`AirPianoPressDetector`)

State of `AirPianoPressDetector` from src/js/dualCameraView.js.  The
constructor fixes `pressThreshold = 0.040` and `cooldownTime = 100`; they
are kept as state fields because they are instance fields in the source. -/

/-- A top-camera position sample stored by `updatePosition`. -/
structure FingerPos where
  x : ℚ
  y : ℚ
  timestamp : ℚ
  deriving DecidableEq, Repr

/-- The mutable state of `AirPianoPressDetector`. -/
structure DetectorState where
  deskSurfaceY : List (Nat × ℚ)
  fingerPositions : List (Nat × FingerPos)
  pressThreshold : ℚ
  cooldownTime : ℚ
  lastPressTime : List (Nat × ℚ)
  isPressed : List (Nat × Bool)
  deriving DecidableEq, Repr

/-- The detector state right after `new AirPianoPressDetector()`. -/
def detectorInit : DetectorState :=
  { deskSurfaceY := []
    fingerPositions := []
    pressThreshold := 40/1000
    cooldownTime := 100
    lastPressTime := []
    isPressed := [] }

/-- The press event object returned by `checkPress` on a successful press. -/
structure PressResult where
  x : ℚ
  y : ℚ
  fingerId : Nat
  sideY : ℚ
  deskY : ℚ
  deriving DecidableEq, Repr

/-- `setDeskSurfaceY(fingerId, y)`. -/
def setDeskSurfaceY (st : DetectorState) (fingerId : Nat) (y : ℚ) :
    DetectorState :=
  { st with deskSurfaceY := mapSet st.deskSurfaceY fingerId y }

/-- `updatePosition(fingerId, x, y)` at time `now` (`performance.now()`). -/
def updatePosition (st : DetectorState) (fingerId : Nat) (x y now : ℚ) :
    DetectorState :=
  { st with fingerPositions := mapSet st.fingerPositions fingerId ⟨x, y, now⟩ }

/-- `getAverageDeskY()`: `null` when no sample exists, else the mean. -/
def getAverageDeskY (st : DetectorState) : Option ℚ :=
  if st.deskSurfaceY = [] then none
  else some ((st.deskSurfaceY.map Prod.snd).sum / st.deskSurfaceY.length)

/-- Body of `checkPress` after the desk-surface lookup succeeded with
value `deskY`; returns the updated state and the press result (`null`
becomes `none`).  Transcribed line by line from the source:
the transition branch stores `lastPressTime` and `isPressed := true`
BEFORE checking the freshness of the top-camera position sample, so a
press dropped for staleness still consumes the transition. -/
def checkPressAux (st : DetectorState) (fingerId : Nat)
    (currentY timestamp deskY : ℚ) : DetectorState × Option PressResult :=
  let distanceFromDesk := currentY - deskY
  let last := (mapGet st.lastPressTime fingerId).getD 0
  let timeSinceLastPress := timestamp - last
  let wasPressed := (mapGet st.isPressed fingerId).getD false
  if distanceFromDesk ≥ -st.pressThreshold ∧ wasPressed = false ∧
      timeSinceLastPress > st.cooldownTime then
    let st' := { st with
      lastPressTime := mapSet st.lastPressTime fingerId timestamp
      isPressed := mapSet st.isPressed fingerId true }
    match mapGet st.fingerPositions fingerId with
    | some pos =>
      if timestamp - pos.timestamp < 150 then
        (st', some { x := pos.x, y := pos.y, fingerId := fingerId,
                     sideY := currentY, deskY := deskY })
      else (st', none)
    | none => (st', none)
  else if ¬ distanceFromDesk ≥ -st.pressThreshold then
    ({ st with isPressed := mapSet st.isPressed fingerId false }, none)
  else
    (st, none)

/-- `checkPress(fingerId, currentY, timestamp)`: `null` (no state change)
when no desk reference is stored for the finger. -/
def checkPress (st : DetectorState) (fingerId : Nat)
    (currentY timestamp : ℚ) : DetectorState × Option PressResult :=
  match mapGet st.deskSurfaceY fingerId with
  | none => (st, none)
  | some deskY => checkPressAux st fingerId currentY timestamp deskY

/-- The detector's `isPressed` flag for a finger (`false` if absent,
matching `this.isPressed.get(fingerId) || false`). -/
def pressedOf (st : DetectorState) (fingerId : Nat) : Bool :=
  (mapGet st.isPressed fingerId).getD false

/-- The detector's `lastPressTime` for a finger (`0` if absent, matching
`this.lastPressTime.get(fingerId) || 0`). -/
def lastOf (st : DetectorState) (fingerId : Nat) : ℚ :=
  (mapGet st.lastPressTime fingerId).getD 0

/-! ## The controller frame loop (`AirPianoController.onResultsSide`)

The per-frame press-detection / note-lifecycle block of `onResultsSide`
(src/js/dualCameraView.js lines 371-423), for the side camera, together
with the region mapping it performs inline. -/

/-- The controller state relevant to the note lifecycle.  `keyboardArea`
is kept as its `x` and `width` in top-canvas pixels, with the canvas
width used to normalize, exactly as `onResultsSide` divides by
`this.canvasTop.width`. -/
structure ControllerState where
  detector : DetectorState
  activeNotes : List (Nat × Nat)
  octaveStart : Nat
  numKeys : Nat
  keyboardAreaX : ℚ
  keyboardAreaWidth : ℚ
  canvasTopWidth : ℚ
  deriving DecidableEq, Repr

/-- The region-mapping block of `onResultsSide`: given the normalized x
of a press result, produce the MIDI note number, or `none` when the
point is outside the drawn region or the computed `keyIndex` falls
outside `[0, numKeys)`. -/
def mapPress (octaveStart numKeys : Nat) (areaX areaW canvasW : ℚ)
    (normalizedX : ℚ) : Option Nat :=
  let keyboardStartX := areaX / canvasW
  let keyboardEndX := (areaX + areaW) / canvasW
  if normalizedX ≥ keyboardStartX ∧ normalizedX ≤ keyboardEndX then
    let relativeX := (normalizedX - keyboardStartX) / (keyboardEndX - keyboardStartX)
    let keyIndex : ℤ := ⌊relativeX * numKeys⌋
    if 0 ≤ keyIndex ∧ keyIndex < numKeys then
      some (octaveStart + keyIndex.toNat)
    else none
  else none

/-- Accumulator of the finger loop of `onResultsSide`: the detector state
threaded through `checkPress`, the `activeNotes` map, the
`currentlyPressed` set and the note-on events emitted so far. -/
structure FrameAcc where
  det : DetectorState
  active : List (Nat × Nat)
  pressed : List Nat
  noteOns : List Nat
  deriving DecidableEq, Repr

/-- One iteration of the fingertip loop in `onResultsSide`: run
`checkPress`; if it yields a press result, map its x to a key; on a
valid key add the note to `currentlyPressed` and, if the note is not
already active, register it with the owning finger and emit note-on. -/
def stepFinger (octaveStart numKeys : Nat) (areaX areaW canvasW : ℚ)
    (timestamp : ℚ) (acc : FrameAcc) (finger : Nat × ℚ) : FrameAcc :=
  let res := checkPress acc.det finger.1 finger.2 timestamp
  match res.2 with
  | none => { acc with det := res.1 }
  | some pr =>
    match mapPress octaveStart numKeys areaX areaW canvasW pr.x with
    | none => { acc with det := res.1 }
    | some midi =>
      if (mapGet acc.active midi).isSome then
        { acc with det := res.1, pressed := acc.pressed ++ [midi] }
      else
        { det := res.1
          active := acc.active ++ [(midi, finger.1)]
          pressed := acc.pressed ++ [midi]
          noteOns := acc.noteOns ++ [midi] }

/-- The full press-detection / note-lifecycle block of `onResultsSide`
for one side-camera frame: the fingertip loop followed by the release
loop (`activeNotes.forEach`: every active note not in `currentlyPressed`
is removed and emits a note-off).  Returns the new controller state, the
note-on events and the note-off events of the frame. -/
def processFrame (cs : ControllerState) (fingers : List (Nat × ℚ))
    (timestamp : ℚ) : ControllerState × List Nat × List Nat :=
  let acc := fingers.foldl
    (stepFinger cs.octaveStart cs.numKeys cs.keyboardAreaX
      cs.keyboardAreaWidth cs.canvasTopWidth timestamp)
    ⟨cs.detector, cs.activeNotes, [], []⟩
  let noteOffs := (acc.active.filter (fun p => !(acc.pressed.contains p.1))).map Prod.fst
  let active' := acc.active.filter (fun p => acc.pressed.contains p.1)
  ({ cs with detector := acc.det, activeNotes := active' }, acc.noteOns, noteOffs)

/-- The calibration-capture block of `onResultsSide` (lines 333-352):
for every visible fingertip sample, store its side-camera y as that
finger's desk reference via `setDeskSurfaceY`.  The pre-existing
`deskSurfaceY` map is NOT cleared first. -/
def calibrationCapture (st : DetectorState) (samples : List (Nat × ℚ)) :
    DetectorState :=
  samples.foldl (fun s p => setDeskSurfaceY s p.1 p.2) st

/-- `AirPianoController.stop()` (lines 208-223): emit a note-off
(`onNoteRelease`) for every entry of `activeNotes`, then clear the map. -/
def stop (cs : ControllerState) : ControllerState × List Nat :=
  let offs := cs.activeNotes.foldl (fun acc p => acc ++ [p.1]) []
  ({ cs with activeNotes := [] }, offs)

/-! ## Recorder and playback (src/js/main.js) -/

/-- A `recordedNotes` entry. -/
structure RecordedNote where
  midiNote : Nat
  velocity : Nat
  timestamp : ℚ
  duration : ℚ
  deriving DecidableEq, Repr

/-- The recorder's module-level state in main.js. -/
structure RecordingState where
  recordedNotes : List RecordedNote
  isRecording : Bool
  recordingStartTime : ℚ
  lastNoteOnTime : List (Nat × ℚ)
  deriving DecidableEq, Repr

/-- `startRecording()` at time `now`. -/
def startRecording (st : RecordingState) (now : ℚ) : RecordingState :=
  { st with recordedNotes := [], isRecording := true, recordingStartTime := now }

/-- `recordNote(midiNote, velocity, isNoteOn)` at time `now`
(`performance.now()`): no-op unless recording; a note-on stores the
start offset in the pending map; a note-off with a pending entry appends
a `RecordedNote` and clears the entry, otherwise does nothing. -/
def recordNote (st : RecordingState) (midiNote velocity : Nat)
    (isNoteOn : Bool) (now : ℚ) : RecordingState :=
  if st.isRecording = false then st
  else
    let currentTime := now - st.recordingStartTime
    if isNoteOn then
      { st with lastNoteOnTime := mapSet st.lastNoteOnTime midiNote currentTime }
    else
      match mapGet st.lastNoteOnTime midiNote with
      | some startTime =>
        { st with
            recordedNotes := st.recordedNotes ++
              [⟨midiNote, velocity, startTime, currentTime - startTime⟩]
            lastNoteOnTime := mapDelete st.lastNoteOnTime midiNote }
      | none => st

/-- `stopRecording()`: flips `isRecording` and returns `recordedNotes`;
pending entries are neither flushed into the list nor closed. -/
def stopRecording (st : RecordingState) : RecordingState × List RecordedNote :=
  ({ st with isRecording := false }, st.recordedNotes)

/-- A note message fed to `recordNote` (one call). -/
structure NoteMsg where
  midiNote : Nat
  velocity : Nat
  isNoteOn : Bool
  time : ℚ
  deriving DecidableEq, Repr

/-- A whole stream of `recordNote` calls. -/
def runRecording (st : RecordingState) (msgs : List NoteMsg) : RecordingState :=
  msgs.foldl (fun s m => recordNote s m.midiNote m.velocity m.isNoteOn m.time) st

/-- A deferred playback callback scheduled by `playRecording`:
`(fire time relative to playback start, midi note, note-on?)`. -/
def PlaybackEvent : Type := ℚ × Nat × Bool

/-- The playback-relevant module state of main.js: the pending
`playbackTimeouts` (modelled by the events their callbacks would emit)
and the `isPlayingRecording` flag. -/
structure PlaybackState where
  playbackTimeouts : List (ℚ × Nat × Bool)
  isPlayingRecording : Bool
  deriving DecidableEq, Repr

/-- The schedule built by `playRecording`: for each recorded note a
note-on timeout at `timestamp` and a note-off timeout at
`timestamp + duration`. -/
def playRecording (notes : List RecordedNote) : List (ℚ × Nat × Bool) :=
  (notes.map (fun n =>
    [(n.timestamp, n.midiNote, true), (n.timestamp + n.duration, n.midiNote, false)])).flatten

/-- Advance wall-clock to `t`: fire (emit) every pending timeout whose
fire time has passed, keep the rest pending. -/
def fireDue (t : ℚ) (pending : List (ℚ × Nat × Bool)) :
    List (Nat × Bool) × List (ℚ × Nat × Bool) :=
  ((pending.filter (fun e => decide (e.1 ≤ t))).map (fun e => (e.2.1, e.2.2)),
   pending.filter (fun e => decide (¬ e.1 ≤ t)))

/-- The notes left sounding by an emitted event stream: note-on seen,
no note-off seen. -/
def openNotes (emitted : List (Nat × Bool)) : List Nat :=
  ((emitted.filter (fun e => e.2)).map Prod.fst).filter
    (fun n => !(emitted.contains (n, false)))

/-- `stopPlayback()` (main.js lines 465-471): `clearTimeout` on every
pending timeout and reset the flag.  No note event is emitted. -/
def stopPlayback (_ps : PlaybackState) : PlaybackState × List (Nat × Bool) :=
  ({ playbackTimeouts := [], isPlayingRecording := false }, [])

/-! ## Exercise Validator -/

/-- Feedback emitted by the Exercise Validator. -/
inductive Feedback where
  | positive
  | negative
  | complete
  | ignored
  deriving DecidableEq, Repr

/-- Modelled from the spec: the Exercise Validator of spec §4.6 has no
implementation under src/ (the README's Teacher Mode describes it, but
src/js/teacherView.js contains no expected-sequence validation), so it
is modelled from the spec's words: an ordered expected-note sequence and
a cursor, with recorded mismatches and a one-shot completion signal. -/
structure ExerciseValidator where
  expected : List Nat
  cursor : Nat
  mistakes : List (Nat × Nat)
  completeSignaled : Bool
  deriving DecidableEq, Repr

/-- Modelled from the spec: §4.6 "On each note-on event: if cursor is
past the end, treat subsequent note-ons as a final `complete` signal
only once, then ignore; otherwise compare the note number to
`expected[cursor]`.  Equal → record success, advance cursor, emit
positive feedback.  Unequal → record the mismatch (expected vs. actual)
without advancing the cursor, emit negative feedback." -/
def validatorOnNoteOn (v : ExerciseValidator) (note : Nat) :
    ExerciseValidator × Feedback :=
  if h : v.cursor < v.expected.length then
    let exp := v.expected.get ⟨v.cursor, h⟩
    if note = exp then
      ({ v with cursor := v.cursor + 1 }, Feedback.positive)
    else
      ({ v with mistakes := v.mistakes ++ [(exp, note)] }, Feedback.negative)
  else if v.completeSignaled then (v, Feedback.ignored)
  else ({ v with completeSignaled := true }, Feedback.complete)

/-- Modelled from the spec: §4.6 "Reset sets cursor to 0 and clears
recorded mismatches/history." -/
def validatorReset (v : ExerciseValidator) : ExerciseValidator :=
  { v with cursor := 0, mistakes := [], completeSignaled := false }

/-! ## Branch analysis of `checkPress` -/

/-- `checkPress` never modifies the desk references, the position
samples, or the two tuning constants. -/
theorem checkPress_preserves (st : DetectorState) (f : Nat) (y t : ℚ) :
    (checkPress st f y t).1.deskSurfaceY = st.deskSurfaceY ∧
    (checkPress st f y t).1.fingerPositions = st.fingerPositions ∧
    (checkPress st f y t).1.pressThreshold = st.pressThreshold ∧
    (checkPress st f y t).1.cooldownTime = st.cooldownTime := by
  simp only [checkPress, checkPressAux]
  repeat' split
  all_goals exact ⟨rfl, rfl, rfl, rfl⟩

/-- The `RELEASED → PRESSED` transition branch: reference present, within
the threshold band, not already pressed, cooldown elapsed.  The press
timestamp and the pressed flag are recorded regardless of whether the
press is then emitted or dropped for staleness. -/
theorem checkPress_transition (st : DetectorState) (f : Nat) (y t r : ℚ)
    (href : mapGet st.deskSurfaceY f = some r)
    (htouch : y - r ≥ -st.pressThreshold)
    (hrel : pressedOf st f = false)
    (hcool : t - lastOf st f > st.cooldownTime) :
    ∃ res, checkPress st f y t =
      ({ st with lastPressTime := mapSet st.lastPressTime f t,
                 isPressed := mapSet st.isPressed f true }, res) := by
  unfold pressedOf at hrel
  unfold lastOf at hcool
  simp only [checkPress, href, checkPressAux]
  rw [if_pos ⟨htouch, hrel, hcool⟩]
  cases hpos : mapGet st.fingerPositions f with
  | none => simp only [hpos]; exact ⟨none, rfl⟩
  | some pos =>
    simp only [hpos]
    by_cases hfresh : t - pos.timestamp < 150
    · rw [if_pos hfresh]
      exact ⟨_, rfl⟩
    · rw [if_neg hfresh]
      exact ⟨none, rfl⟩

/-- In the transition branch, the press is emitted exactly when a fresh
(< 150 ms old) top-camera sample exists for the finger. -/
theorem checkPress_transition_fresh (st : DetectorState) (f : Nat)
    (y t r : ℚ) (pos : FingerPos)
    (href : mapGet st.deskSurfaceY f = some r)
    (htouch : y - r ≥ -st.pressThreshold)
    (hrel : pressedOf st f = false)
    (hcool : t - lastOf st f > st.cooldownTime)
    (hpos : mapGet st.fingerPositions f = some pos)
    (hfresh : t - pos.timestamp < 150) :
    checkPress st f y t =
      ({ st with lastPressTime := mapSet st.lastPressTime f t,
                 isPressed := mapSet st.isPressed f true },
       some { x := pos.x, y := pos.y, fingerId := f, sideY := y, deskY := r }) := by
  unfold pressedOf at hrel
  unfold lastOf at hcool
  simp only [checkPress, href, checkPressAux, hpos]
  rw [if_pos ⟨htouch, hrel, hcool⟩]
  rw [if_pos hfresh]

/-- In the transition branch, the press is dropped (`null`) when the
top-camera sample is missing or at least 150 ms old — but the state
still records the press. -/
theorem checkPress_transition_stale (st : DetectorState) (f : Nat)
    (y t r : ℚ)
    (href : mapGet st.deskSurfaceY f = some r)
    (htouch : y - r ≥ -st.pressThreshold)
    (hrel : pressedOf st f = false)
    (hcool : t - lastOf st f > st.cooldownTime)
    (hstale : ∀ pos ∈ mapGet st.fingerPositions f, 150 ≤ t - pos.timestamp) :
    checkPress st f y t =
      ({ st with lastPressTime := mapSet st.lastPressTime f t,
                 isPressed := mapSet st.isPressed f true }, none) := by
  unfold pressedOf at hrel
  unfold lastOf at hcool
  simp only [checkPress, href, checkPressAux]
  rw [if_pos ⟨htouch, hrel, hcool⟩]
  cases hpos : mapGet st.fingerPositions f with
  | none => simp only [hpos]
  | some pos =>
    have h150 : 150 ≤ t - pos.timestamp := hstale pos (by rw [hpos]; rfl)
    simp only [hpos]
    rw [if_neg (by linarith)]

/-- The release branch: as soon as the signal leaves the threshold band
the pressed flag is cleared (no cooldown), and nothing is emitted. -/
theorem checkPress_release (st : DetectorState) (f : Nat) (y t r : ℚ)
    (href : mapGet st.deskSurfaceY f = some r)
    (hnot : ¬ y - r ≥ -st.pressThreshold) :
    checkPress st f y t =
      ({ st with isPressed := mapSet st.isPressed f false }, none) := by
  simp only [checkPress, href, checkPressAux]
  rw [if_neg (fun h => hnot h.1)]
  rw [if_pos hnot]

/-- A press evaluated while the point is already pressed and still
touching is a complete no-op. -/
theorem checkPress_held (st : DetectorState) (f : Nat) (y t r : ℚ)
    (href : mapGet st.deskSurfaceY f = some r)
    (htouch : y - r ≥ -st.pressThreshold)
    (hheld : pressedOf st f = true) :
    checkPress st f y t = (st, none) := by
  unfold pressedOf at hheld
  simp only [checkPress, href, checkPressAux]
  rw [if_neg (by rintro ⟨-, h, -⟩; rw [hheld] at h; exact Bool.noConfusion h)]
  rw [if_neg (fun h => h htouch)]

/-- A press within the threshold band while released but still inside
the cooldown window is a complete no-op: the transition is blocked. -/
theorem checkPress_blocked (st : DetectorState) (f : Nat) (y t r : ℚ)
    (href : mapGet st.deskSurfaceY f = some r)
    (htouch : y - r ≥ -st.pressThreshold)
    (hcool : ¬ t - lastOf st f > st.cooldownTime) :
    checkPress st f y t = (st, none) := by
  unfold lastOf at hcool
  simp only [checkPress, href, checkPressAux]
  rw [if_neg (by rintro ⟨-, -, h⟩; exact hcool h)]
  rw [if_neg (fun h => h htouch)]

/-- Across every branch of `checkPress`, the finger's stored
`lastPressTime` either is untouched with nothing emitted, or becomes the
call's timestamp with the cooldown having elapsed. -/
theorem checkPress_lastPressTime_cases (st : DetectorState) (f : Nat)
    (y t : ℚ) :
    (mapGet (checkPress st f y t).1.lastPressTime f = mapGet st.lastPressTime f ∧
      (checkPress st f y t).2 = none) ∨
    (mapGet (checkPress st f y t).1.lastPressTime f = some t ∧
      t - lastOf st f > st.cooldownTime) := by
  cases href : mapGet st.deskSurfaceY f with
  | none =>
    left
    simp [checkPress, href]
  | some r =>
    by_cases htouch : y - r ≥ -st.pressThreshold
    · cases hrel : pressedOf st f with
      | true =>
        left
        rw [checkPress_held st f y t r href htouch hrel]
        exact ⟨rfl, rfl⟩
      | false =>
        by_cases hcool : t - lastOf st f > st.cooldownTime
        · right
          obtain ⟨res, heq⟩ := checkPress_transition st f y t r href htouch hrel hcool
          rw [heq]
          exact ⟨mapGet_set_self _ _ _, hcool⟩
        · left
          rw [checkPress_blocked st f y t r href htouch hcool]
          exact ⟨rfl, rfl⟩
    · left
      rw [checkPress_release st f y t r href htouch]
      exact ⟨rfl, rfl⟩

/-! ## Sequences of `checkPress` calls for one finger -/

/-- Run a sequence of `(currentY, timestamp)` calls of `checkPress` for
one finger, returning the final detector state and the timestamps of the
calls that emitted a press event. -/
def runPresses (f : Nat) : DetectorState → List (ℚ × ℚ) → DetectorState × List ℚ
  | st, [] => (st, [])
  | st, (y, t) :: rest =>
    let step := checkPress st f y t
    let restRun := runPresses f step.1 rest
    (restRun.1, (if (step.2).isSome then [t] else []) ++ restRun.2)

/-- Every press emitted during a run happens more than `cooldownTime`
after the finger's `lastPressTime` at the start of the run. -/
theorem runPresses_emit_gap (f : Nat) (calls : List (ℚ × ℚ)) :
    ∀ st : DetectorState, 0 ≤ st.cooldownTime →
      ∀ t' ∈ (runPresses f st calls).2, t' - lastOf st f > st.cooldownTime := by
  induction calls with
  | nil =>
    intro st _ t' h
    simp [runPresses] at h
  | cons c rest ih =>
    intro st hcd t' hmem
    obtain ⟨y, t⟩ := c
    have hcool' : (checkPress st f y t).1.cooldownTime = st.cooldownTime :=
      (checkPress_preserves st f y t).2.2.2
    rcases checkPress_lastPressTime_cases st f y t with ⟨hlast, hnone⟩ | ⟨hlast, hgap⟩
    · simp only [runPresses, hnone, Option.isSome_none, Bool.false_eq_true,
        if_false, List.nil_append] at hmem
      have hlast' : lastOf (checkPress st f y t).1 f = lastOf st f := by
        unfold lastOf
        rw [hlast]
      have := ih (checkPress st f y t).1 (by rw [hcool']; exact hcd) t' hmem
      rw [hcool', hlast'] at this
      exact this
    · have hlast' : lastOf (checkPress st f y t).1 f = t := by
        unfold lastOf
        rw [hlast]
        rfl
      simp only [runPresses, List.mem_append] at hmem
      rcases hmem with hhead | htail
      · have ht' : t' = t := by
          rcases h : (checkPress st f y t).2 with - | v
          · rw [h] at hhead
            simp at hhead
          · rw [h] at hhead
            simp at hhead
            exact hhead
        rw [ht']
        exact hgap
      · have := ih (checkPress st f y t).1 (by rw [hcool']; exact hcd) t' htail
        rw [hcool', hlast'] at this
        have hcd2 : 0 ≤ st.cooldownTime := hcd
        linarith

/-- Any two presses emitted during a run of `checkPress` calls for one
finger are separated by more than `cooldownTime`. -/
theorem runPresses_gap_pairwise (f : Nat) (calls : List (ℚ × ℚ)) :
    ∀ st : DetectorState, 0 ≤ st.cooldownTime →
      List.Pairwise (fun a b => b - a > st.cooldownTime)
        (runPresses f st calls).2 := by
  induction calls with
  | nil =>
    intro st _
    simp [runPresses]
  | cons c rest ih =>
    intro st hcd
    obtain ⟨y, t⟩ := c
    have hcool' : (checkPress st f y t).1.cooldownTime = st.cooldownTime :=
      (checkPress_preserves st f y t).2.2.2
    rcases checkPress_lastPressTime_cases st f y t with ⟨-, hnone⟩ | ⟨hlast, hgap⟩
    · simp only [runPresses, hnone, Option.isSome_none, Bool.false_eq_true,
        if_false, List.nil_append]
      have := ih (checkPress st f y t).1 (by rw [hcool']; exact hcd)
      rw [hcool'] at this
      exact this
    · have hlast' : lastOf (checkPress st f y t).1 f = t := by
        unfold lastOf
        rw [hlast]
        rfl
      rcases h : (checkPress st f y t).2 with - | v
      · simp only [runPresses, h, Option.isSome_none, Bool.false_eq_true,
          if_false, List.nil_append]
        have := ih (checkPress st f y t).1 (by rw [hcool']; exact hcd)
        rw [hcool'] at this
        exact this
      · simp only [runPresses, h, Option.isSome_some, if_true, List.singleton_append]
        constructor
        · intro b hb
          have := runPresses_emit_gap f rest (checkPress st f y t).1
            (by rw [hcool']; exact hcd) b hb
          rw [hcool', hlast'] at this
          exact this
        · have := ih (checkPress st f y t).1 (by rw [hcool']; exact hcd)
          rw [hcool'] at this
          exact this

/-- While a finger's pressed flag is set, no press can be emitted for it
by any sequence of calls that never leaves the threshold band. -/
theorem runPresses_held_silent (f : Nat) (r : ℚ) (calls : List (ℚ × ℚ)) :
    ∀ st : DetectorState, mapGet st.deskSurfaceY f = some r →
      pressedOf st f = true →
      (∀ p ∈ calls, p.1 - r ≥ -st.pressThreshold) →
      (runPresses f st calls).2 = [] := by
  induction calls with
  | nil =>
    intro st _ _ _
    simp [runPresses]
  | cons c rest ih =>
    intro st href hpr htouch
    obtain ⟨y, t⟩ := c
    have hstep : checkPress st f y t = (st, none) :=
      checkPress_held st f y t r href (htouch (y, t) (List.mem_cons_self _ _)) hpr
    simp only [runPresses, hstep, Option.isSome_none, Bool.false_eq_true,
      if_false, List.nil_append]
    exact ih st href hpr (fun p hp => htouch p (List.mem_cons_of_mem _ hp))

/-! ## Claims about the press detector -/

/-- C8: for every tracked point with no stored reference value,
evaluating a press is a silent no-op: `checkPress` returns `null`,
changes no state, and (being total) cannot throw, for every signal value
and timestamp. -/
theorem c8_uncalibrated_press_noop (st : DetectorState) (f : Nat) (y t : ℚ)
    (href : mapGet st.deskSurfaceY f = none) :
    checkPress st f y t = (st, none) := by
  simp [checkPress, href]

/-- Witness for C8 at the freshly-constructed detector. -/
theorem c8_uncalibrated_press_noop_witness :
    mapGet detectorInit.deskSurfaceY 0 = none ∧
      checkPress detectorInit 0 (1/2) 200 = (detectorInit, none) :=
  ⟨rfl, c8_uncalibrated_press_noop detectorInit 0 (1/2) 200 rfl⟩

/-- Detector state for the C3 analysis: finger 0 calibrated at
reference 1/2, never pressed before. -/
def detC3 : DetectorState :=
  { detectorInit with deskSurfaceY := [(0, 1/2)] }

/-- C3 counterexample: at timestamp 50 (within the 100 ms cooldown
window measured from the default `lastPressTime` of 0) finger 0 is
released, its signal equals its reference (so
`signal - r ≥ -pressThreshold` holds), and yet no transition to
`PRESSED` happens — the claim's "iff" fails in the ← direction. -/
theorem c3_counterexample :
    ((1:ℚ)/2 - 1/2 ≥ -detC3.pressThreshold) ∧
    pressedOf detC3 0 = false ∧
    pressedOf (checkPress detC3 0 (1/2) 50).1 0 = false := by
  refine ⟨by norm_num [detC3, detectorInit], rfl, ?_⟩
  norm_num [checkPress, checkPressAux, mapGet, pressedOf, detC3, detectorInit]

/-- C3 (amended): for a point with stored reference `r` that is
currently released, a `checkPress` call transitions it to `PRESSED` iff
`signal - r ≥ -pressThreshold` AND more than `cooldownTime` has elapsed
since the point's stored `lastPressTime` (0 by default); the boundary is
inclusive (`signal = r` satisfies the band condition). -/
theorem c3_press_transition_iff (st : DetectorState) (f : Nat) (y t r : ℚ)
    (href : mapGet st.deskSurfaceY f = some r)
    (hrel : pressedOf st f = false) :
    pressedOf (checkPress st f y t).1 f = true ↔
      (y - r ≥ -st.pressThreshold ∧ t - lastOf st f > st.cooldownTime) := by
  constructor
  · intro hp
    by_cases htouch : y - r ≥ -st.pressThreshold
    · by_cases hcool : t - lastOf st f > st.cooldownTime
      · exact ⟨htouch, hcool⟩
      · rw [checkPress_blocked st f y t r href htouch hcool] at hp
        rw [hrel] at hp
        exact absurd hp (by simp)
    · rw [checkPress_release st f y t r href htouch] at hp
      simp [pressedOf, mapGet_set_self] at hp
  · rintro ⟨htouch, hcool⟩
    obtain ⟨res, heq⟩ := checkPress_transition st f y t r href htouch hrel hcool
    rw [heq]
    simp [pressedOf, mapGet_set_self]

/-- Witness for the amended C3 at a concrete calibrated point. -/
theorem c3_press_transition_iff_witness :
    pressedOf (checkPress detC3 0 (1/2) 200).1 0 = true ↔
      ((1:ℚ)/2 - 1/2 ≥ -detC3.pressThreshold ∧
        (200:ℚ) - lastOf detC3 0 > detC3.cooldownTime) :=
  c3_press_transition_iff detC3 0 (1/2) 200 (1/2) rfl rfl

/-- C5: in any run of `checkPress` calls for one tracked point, any two
emitted presses (the only source of note-ons for that point) are
separated by more than `cooldownTime`; hence a pair of press transitions
whose timestamps differ by less than `cooldownTime` produces at most one
note-on — the later transition of such a pair is necessarily blocked. -/
theorem c5_presses_respect_cooldown (st : DetectorState) (f : Nat)
    (calls : List (ℚ × ℚ)) (hcd : 0 ≤ st.cooldownTime) :
    List.Pairwise (fun a b => b - a > st.cooldownTime)
      (runPresses f st calls).2 :=
  runPresses_gap_pairwise f calls st hcd

/-- Detector state for the C5 witness: calibrated finger with a fresh
position sample. -/
def detC5 : DetectorState :=
  { detectorInit with
      deskSurfaceY := [(0, 1/2)]
      fingerPositions := [(0, ⟨1/4, 1/4, 100⟩)] }

/-- Witness for C5: two touching calls 50 ms apart. -/
theorem c5_presses_respect_cooldown_witness :
    (0:ℚ) ≤ detC5.cooldownTime ∧
      List.Pairwise (fun a b => b - a > detC5.cooldownTime)
        (runPresses 0 detC5 [(1/2, 200), (1/2, 250)]).2 :=
  ⟨by norm_num [detC5, detectorInit],
   c5_presses_respect_cooldown detC5 0 [(1/2, 200), (1/2, 250)]
     (by norm_num [detC5, detectorInit])⟩

/-- C10: a press transition whose top-camera position sample is missing
or at least 150 ms old returns `null` but still sets the pressed flag
and records the press timestamp; consequently no press can be emitted
for the point by calls that never leave the threshold band, and any
press ever emitted afterwards comes more than `cooldownTime` after the
dropped press. -/
theorem c10_dropped_press_consumes_transition (st : DetectorState)
    (f : Nat) (y t r : ℚ)
    (href : mapGet st.deskSurfaceY f = some r)
    (hrel : pressedOf st f = false)
    (htouch : y - r ≥ -st.pressThreshold)
    (hcool : t - lastOf st f > st.cooldownTime)
    (hstale : ∀ pos ∈ mapGet st.fingerPositions f, 150 ≤ t - pos.timestamp)
    (hcd : 0 ≤ st.cooldownTime) :
    (checkPress st f y t).2 = none ∧
    pressedOf (checkPress st f y t).1 f = true ∧
    mapGet (checkPress st f y t).1.lastPressTime f = some t ∧
    (∀ calls : List (ℚ × ℚ),
      (∀ p ∈ calls, p.1 - r ≥ -st.pressThreshold) →
      (runPresses f (checkPress st f y t).1 calls).2 = []) ∧
    (∀ (calls : List (ℚ × ℚ)) (u : ℚ),
      u ∈ (runPresses f (checkPress st f y t).1 calls).2 →
      u - t > st.cooldownTime) := by
  have heq := checkPress_transition_stale st f y t r href htouch hrel hcool hstale
  have h1 : (checkPress st f y t).1 = { st with
      lastPressTime := mapSet st.lastPressTime f t,
      isPressed := mapSet st.isPressed f true } := by rw [heq]
  have h2 : (checkPress st f y t).2 = none := by rw [heq]
  rw [h1, h2]
  refine ⟨rfl, ?_, ?_, ?_, ?_⟩
  · simp [pressedOf, mapGet_set_self]
  · exact mapGet_set_self _ _ _
  · intro calls hband
    exact runPresses_held_silent f r calls _ href
      (by simp [pressedOf, mapGet_set_self]) hband
  · intro calls u hu
    have hlast : lastOf { st with
        lastPressTime := mapSet st.lastPressTime f t,
        isPressed := mapSet st.isPressed f true } f = t := by
      unfold lastOf
      rw [mapGet_set_self]
      rfl
    have hgap := runPresses_emit_gap f calls
      { st with
        lastPressTime := mapSet st.lastPressTime f t,
        isPressed := mapSet st.isPressed f true } hcd u hu
    rw [hlast] at hgap
    exact hgap

/-- Detector state for the C10 witness: calibrated finger whose stored
position sample is 200 ms old at the press. -/
def detC10 : DetectorState :=
  { detectorInit with
      deskSurfaceY := [(0, 1/2)]
      fingerPositions := [(0, ⟨1/4, 1/4, 0⟩)] }

/-- Witness for C10: a concrete stale press at `t = 200`. -/
theorem c10_dropped_press_consumes_transition_witness :
    (checkPress detC10 0 (1/2) 200).2 = none ∧
    pressedOf (checkPress detC10 0 (1/2) 200).1 0 = true ∧
    mapGet (checkPress detC10 0 (1/2) 200).1.lastPressTime 0 = some 200 ∧
    (∀ calls : List (ℚ × ℚ),
      (∀ p ∈ calls, p.1 - (1:ℚ)/2 ≥ -detC10.pressThreshold) →
      (runPresses 0 (checkPress detC10 0 (1/2) 200).1 calls).2 = []) ∧
    (∀ (calls : List (ℚ × ℚ)) (u : ℚ),
      u ∈ (runPresses 0 (checkPress detC10 0 (1/2) 200).1 calls).2 →
      u - 200 > detC10.cooldownTime) :=
  c10_dropped_press_consumes_transition detC10 0 (1/2) 200 (1/2)
    rfl rfl
    (by norm_num [detC10, detectorInit])
    (by norm_num [detC10, detectorInit, lastOf, mapGet])
    (by
      intro pos hpos
      have hp : ({ x := 1/4, y := 1/4, timestamp := 0 } : FingerPos) = pos := by
        simpa [detC10, detectorInit, mapGet, Option.mem_def] using hpos
      rw [← hp]
      norm_num)
    (by norm_num [detC10, detectorInit])

/-! ## Claims about the note lifecycle -/

/-- Controller state for the C1 scenario: calibrated finger 0
(reference 1/2) with a fresh top-camera sample at x = 1/4, a playing
region covering the whole top canvas, octave base 48, 12 keys, no
active notes. -/
def csC1 : ControllerState :=
  { detector :=
      { detectorInit with
          deskSurfaceY := [(0, 1/2)]
          fingerPositions := [(0, ⟨1/4, 1/4, 100⟩)] }
    activeNotes := []
    octaveStart := 48
    numKeys := 12
    keyboardAreaX := 0
    keyboardAreaWidth := 1
    canvasTopWidth := 1 }

/-- C1: the code releases a note on the very next frame even while the
owning point still holds the press.  Frame 1 (t = 200 ms, finger at the
reference): note-on 51 (x = 1/4 maps to key 3).  Frame 2 (t = 233 ms,
finger unchanged, still at the reference): `checkPress` reports nothing
because the transition already fired, so `currentlyPressed` is empty and
note 51 receives a note-off — although the detector's own `isPressed`
flag for the finger is still `true`.  This contradicts the claim that a
note-off is emitted exactly when no tracked point sustains the note. -/
theorem c1_held_note_released_next_frame :
    (processFrame csC1 [(0, 1/2)] 200).2.1 = [51] ∧
    (processFrame csC1 [(0, 1/2)] 200).2.2 = [] ∧
    (processFrame (processFrame csC1 [(0, 1/2)] 200).1 [(0, 1/2)] 233).2.1 = [] ∧
    (processFrame (processFrame csC1 [(0, 1/2)] 200).1 [(0, 1/2)] 233).2.2 = [51] ∧
    pressedOf
      (processFrame (processFrame csC1 [(0, 1/2)] 200).1 [(0, 1/2)] 233).1.detector
      0 = true := by
  norm_num [processFrame, stepFinger, checkPress, checkPressAux, mapPress,
    mapGet, mapSet, pressedOf, csC1, detectorInit]
  decide

/-- `forEach`-with-append produces exactly the keys of the map. -/
theorem foldl_append_fst (l : List (Nat × Nat)) :
    ∀ init : List Nat,
      l.foldl (fun acc p => acc ++ [p.1]) init = init ++ l.map Prod.fst := by
  induction l with
  | nil =>
    intro init
    simp
  | cons p rest ih =>
    intro init
    simp [ih]

/-- C2 (amended): `AirPianoController.stop` emits one note-off per entry
of `activeNotes` (exactly `N` note-offs for `N` active notes, in map
order) before clearing the map; `stopPlayback`, by contrast, cancels
every pending deferred callback and emits no note-off at all. -/
theorem c2_stop_releases_all (cs : ControllerState) (ps : PlaybackState) :
    (stop cs).2 = cs.activeNotes.map Prod.fst ∧
    (stop cs).2.length = cs.activeNotes.length ∧
    (stop cs).1.activeNotes = [] ∧
    (stopPlayback ps).2 = [] := by
  have h : (stop cs).2 = cs.activeNotes.map Prod.fst := by
    show cs.activeNotes.foldl (fun acc p => acc ++ [p.1]) [] = _
    rw [foldl_append_fst]
    simp
  refine ⟨h, ?_, rfl, rfl⟩
  rw [h]
  simp

/-- C2 counterexample: play back the one-note recording
`[note 60, start 0, duration 1000]`, advance the clock to 500 ms — the
note-on has fired, the note-off is still pending, so note 60 is
sounding — then call `stopPlayback`: it emits zero note-off events
instead of the one the claim requires. -/
theorem c2_counterexample :
    openNotes (fireDue 500 (playRecording [⟨60, 100, 0, 1000⟩])).1 = [60] ∧
    (stopPlayback
        ⟨(fireDue 500 (playRecording [⟨60, 100, 0, 1000⟩])).2, true⟩).2 = [] := by
  constructor
  · norm_num [openNotes, fireDue, playRecording]
  · rfl

/-! ## Claims about the region mapper -/

/-- C4 counterexample: with the playing region spanning the whole top
canvas (`areaX = 0`, `width = 1`, `canvasW = 1`), 12 keys and octave
base 48, a press exactly at the right edge (`x = 1`) computes
`keyIndex = 12`, fails the `keyIndex < numKeys` bound and is discarded —
it does NOT clamp to the last valid key 59. -/
theorem c4_counterexample :
    mapPress 48 12 0 1 1 1 = none ∧ mapPress 48 12 0 1 1 1 ≠ some 59 := by
  have h : mapPress 48 12 0 1 1 1 = none := by norm_num [mapPress]
  exact ⟨h, by rw [h]; exact Option.noConfusion⟩

/-- C4 (amended): a press whose normalized x lies exactly at the playing
region's right edge computes `keyIndex = keyCount`, which the bound
check `keyIndex < numKeys` discards: no event is produced (discarded
like any other out-of-range index, not clamped to `keyCount - 1`). -/
theorem c4_right_edge_discarded (octaveStart numKeys : Nat)
    (areaX areaW canvasW : ℚ)
    (hW : 0 < canvasW) (hA : 0 < areaW) :
    mapPress octaveStart numKeys areaX areaW canvasW
      ((areaX + areaW) / canvasW) = none := by
  have hsub : (areaX + areaW) / canvasW - areaX / canvasW = areaW / canvasW := by
    field_simp
  have hpos : (0:ℚ) < areaW / canvasW := div_pos hA hW
  simp only [mapPress]
  rw [if_pos ⟨by linarith, le_refl _⟩]
  rw [hsub, div_self (ne_of_gt hpos), one_mul, Int.floor_natCast]
  rw [if_neg (by rintro ⟨-, hlt⟩; exact lt_irrefl _ hlt)]

/-- Witness for the amended C4 at the concrete region of the
counterexample scenario. -/
theorem c4_right_edge_discarded_witness :
    mapPress 48 12 0 1 1 ((0 + 1) / 1) = none :=
  c4_right_edge_discarded 48 12 0 1 1 (by norm_num) (by norm_num)

/-! ## Claims about calibration -/

/-- Detector state for the C6 counterexample: an earlier calibration run
stored reference 1/2 for finger 0. -/
def detC6 : DetectorState :=
  { detectorInit with deskSurfaceY := [(0, 1/2)] }

/-- C6 counterexample: a later calibration run in which only finger 1 is
visible (sample 3/10) leaves finger 0's reference from the earlier run
in place — the old per-point reference value survives recalibration,
contradicting the claim that every reference comes from the new run
alone. -/
theorem c6_counterexample :
    mapGet (calibrationCapture detC6 [(1, 3/10)]).deskSurfaceY 0 = some (1/2) := by
  norm_num [calibrationCapture, setDeskSurfaceY, mapSet, mapGet, detC6,
    detectorInit]

/-- C6 (amended): a calibration capture overwrites the reference of
every point sampled during that run with one of the run's sampled
values (no merging or averaging with the prior value), but a point not
visible during the run keeps whatever reference it had before. -/
theorem c6_capture_overwrites_sampled (samples : List (Nat × ℚ)) :
    ∀ (st : DetectorState) (f : Nat),
      (f ∈ samples.map Prod.fst →
        ∃ y, (f, y) ∈ samples ∧
          mapGet (calibrationCapture st samples).deskSurfaceY f = some y) ∧
      (f ∉ samples.map Prod.fst →
        mapGet (calibrationCapture st samples).deskSurfaceY f =
          mapGet st.deskSurfaceY f) := by
  induction samples with
  | nil =>
    intro st f
    constructor
    · intro h
      simp at h
    · intro _
      rfl
  | cons p rest ih =>
    intro st f
    obtain ⟨k, v⟩ := p
    have hstep : calibrationCapture st ((k, v) :: rest) =
        calibrationCapture (setDeskSurfaceY st k v) rest := by
      simp [calibrationCapture]
    constructor
    · intro hmem
      by_cases hf : f ∈ rest.map Prod.fst
      · obtain ⟨y, hy, hres⟩ := (ih (setDeskSurfaceY st k v) f).1 hf
        rw [hstep]
        exact ⟨y, List.mem_cons_of_mem _ hy, hres⟩
      · have hfk : f = k := by
          simp only [List.map_cons, List.mem_cons] at hmem
          rcases hmem with h | h
          · exact h
          · exact absurd h hf
        subst hfk
        have hres := (ih (setDeskSurfaceY st f v) f).2 hf
        rw [hstep, hres]
        refine ⟨v, List.mem_cons_self _ _, ?_⟩
        show mapGet (mapSet st.deskSurfaceY f v) f = some v
        exact mapGet_set_self _ _ _
    · intro hmem
      have hfk : f ≠ k := by
        intro h
        exact hmem (by simp [h])
      have hf : f ∉ rest.map Prod.fst := by
        intro h
        exact hmem (by simp [h])
      rw [hstep, (ih (setDeskSurfaceY st k v) f).2 hf]
      show mapGet (mapSet st.deskSurfaceY k v) f = mapGet st.deskSurfaceY f
      exact mapGet_set_ne _ _ _ _ (Ne.symm hfk)

/-- Witness for the amended C6: finger 0 sampled at 3/10 in the new run
receives exactly that value. -/
theorem c6_capture_overwrites_sampled_witness :
    ∃ y, ((0:Nat), y) ∈ [((0:Nat), (3:ℚ)/10)] ∧
      mapGet (calibrationCapture detC6 [(0, 3/10)]).deskSurfaceY 0 = some y :=
  (c6_capture_overwrites_sampled [(0, 3/10)] detC6 0).1 (by simp)

/-! ## Claims about the recorder -/

/-- Each `recordNote` call appends an entry only for a note-off that
found a matching pending note-on. -/
theorem recordNote_recorded_cases (st : RecordingState) (n v : Nat)
    (b : Bool) (now : ℚ) :
    ∀ e ∈ (recordNote st n v b now).recordedNotes,
      e ∈ st.recordedNotes ∨ (b = false ∧ e.midiNote = n) := by
  intro e he
  simp only [recordNote] at he
  split_ifs at he with h1 h2
  · exact Or.inl he
  · exact Or.inl he
  · rcases hpend : mapGet st.lastNoteOnTime n with - | s
    · rw [hpend] at he
      exact Or.inl he
    · rw [hpend] at he
      simp only [List.mem_append, List.mem_singleton] at he
      rcases he with he | he
      · exact Or.inl he
      · right
        refine ⟨by simpa using h2, ?_⟩
        rw [he]

/-- Every entry of the recorded list after a stream of `recordNote`
calls either predates the stream or was produced by a note-off message
of the stream. -/
theorem runRecording_recorded_cases (msgs : List NoteMsg) :
    ∀ (st : RecordingState) (e : RecordedNote),
      e ∈ (runRecording st msgs).recordedNotes →
      e ∈ st.recordedNotes ∨
        ∃ m ∈ msgs, m.isNoteOn = false ∧ m.midiNote = e.midiNote := by
  induction msgs with
  | nil =>
    intro st e he
    exact Or.inl he
  | cons m rest ih =>
    intro st e he
    rw [runRecording, List.foldl_cons, ← runRecording] at he
    rcases ih _ e he with h | ⟨m', hm', hoff, hmid⟩
    · rcases recordNote_recorded_cases st m.midiNote m.velocity m.isNoteOn
        m.time e h with h2 | ⟨hb, hmid⟩
      · exact Or.inl h2
      · exact Or.inr ⟨m, List.mem_cons_self _ _, hb, hmid.symm⟩
    · exact Or.inr ⟨m', List.mem_cons_of_mem _ hm', hoff, hmid⟩

/-- C7: stopping the recording returns the recorded list as-is — the
pending note-on map is neither flushed into the list nor given
synthetic note-offs — and every recorded entry of any recording run
comes from a note-off that matched a pending note-on, so a note still
pending when recording stops never appears in the recorded list. -/
theorem c7_pending_notes_discarded_on_stop (st : RecordingState)
    (msgs : List NoteMsg) :
    (stopRecording (runRecording st msgs)).2 =
      (runRecording st msgs).recordedNotes ∧
    (stopRecording (runRecording st msgs)).1.recordedNotes =
      (runRecording st msgs).recordedNotes ∧
    (∀ e ∈ (stopRecording (runRecording st msgs)).2,
      e ∈ st.recordedNotes ∨
        ∃ m ∈ msgs, m.isNoteOn = false ∧ m.midiNote = e.midiNote) := by
  refine ⟨rfl, rfl, ?_⟩
  intro e he
  exact runRecording_recorded_cases msgs st e he

/-- The message stream for the C7 witness: note 60 opens and closes,
note 62 opens and is still pending when recording stops. -/
def msgsC7 : List NoteMsg :=
  [⟨60, 100, true, 1000⟩, ⟨60, 100, false, 1500⟩, ⟨62, 100, true, 1600⟩]

/-- The recording state for the C7 witness: a fresh recording started at
time 1000. -/
def recStC7 : RecordingState := startRecording ⟨[], false, 0, []⟩ 1000

/-- Witness for C7: the only recorded entry is the completed note 60
(start offset 0, duration 500), and it is certified to come from a
note-off of the stream; the pending note 62 contributes nothing. -/
theorem c7_pending_notes_discarded_on_stop_witness :
    (stopRecording (runRecording recStC7 msgsC7)).2 =
      [⟨60, 100, 0, 500⟩] ∧
    ((⟨60, 100, 0, 500⟩ : RecordedNote) ∈ recStC7.recordedNotes ∨
      ∃ m ∈ msgsC7, m.isNoteOn = false ∧
        m.midiNote = (⟨60, 100, 0, 500⟩ : RecordedNote).midiNote) := by
  have hrun : (stopRecording (runRecording recStC7 msgsC7)).2 =
      [⟨60, 100, 0, 500⟩] := by
    norm_num [stopRecording, runRecording, recordNote, startRecording,
      recStC7, msgsC7, mapGet, mapSet, mapDelete]
  refine ⟨hrun, ?_⟩
  exact (c7_pending_notes_discarded_on_stop recStC7 msgsC7).2.2 _
    (by rw [hrun]; exact List.mem_singleton_self _)

/-! ## Claims about the Exercise Validator -/

/-- C9: while the cursor is inside the expected sequence, a note-on
differing from the expected note records exactly one mismatch
(expected, actual) and leaves the cursor unchanged, while a note-on
equal to the expected note advances the cursor by one and records no
mistake. -/
theorem c9_validator_mismatch_no_advance (v : ExerciseValidator)
    (note : Nat) (h : v.cursor < v.expected.length) :
    (note ≠ v.expected.get ⟨v.cursor, h⟩ →
      (validatorOnNoteOn v note).1.mistakes =
        v.mistakes ++ [(v.expected.get ⟨v.cursor, h⟩, note)] ∧
      (validatorOnNoteOn v note).1.cursor = v.cursor) ∧
    (note = v.expected.get ⟨v.cursor, h⟩ →
      (validatorOnNoteOn v note).1.cursor = v.cursor + 1 ∧
      (validatorOnNoteOn v note).1.mistakes = v.mistakes) := by
  constructor
  · intro hne
    rw [validatorOnNoteOn, dif_pos h, if_neg hne]
    exact ⟨rfl, rfl⟩
  · intro heq
    rw [validatorOnNoteOn, dif_pos h, if_pos heq]
    exact ⟨rfl, rfl⟩

/-- The validator for the C9 witness: expecting the C-major opening
`[60, 62, 64]`, cursor at the start, no mistakes yet. -/
def valC9 : ExerciseValidator := ⟨[60, 62, 64], 0, [], false⟩

/-- Witness for C9: playing 61 against expected 60 records the single
mismatch (60, 61) and keeps the cursor at 0; playing 60 advances the
cursor to 1 with no mistake. -/
theorem c9_validator_mismatch_no_advance_witness :
    (validatorOnNoteOn valC9 61).1.mistakes = [(60, 61)] ∧
    (validatorOnNoteOn valC9 61).1.cursor = 0 ∧
    (validatorOnNoteOn valC9 60).1.cursor = 1 ∧
    (validatorOnNoteOn valC9 60).1.mistakes = [] := by
  have h : valC9.cursor < valC9.expected.length := by
    norm_num [valC9]
  have h1 := (c9_validator_mismatch_no_advance valC9 61 h).1 (by simp [valC9])
  have h2 := (c9_validator_mismatch_no_advance valC9 60 h).2 (by simp [valC9])
  refine ⟨?_, h1.2, h2.1, ?_⟩
  · rw [h1.1]
    rfl
  · rw [h2.2]
    rfl

